import Mathlib

/-
Verification of the forecasting / inventory-risk engine of the
ops-command-center dashboard.

The embedded functions are shallow translations of:
  * the inventory-status CASE expression in `load_inventory_data`
    (src/pages/2_Distributor_Inventory.py, lines 373-381);
  * the `visit_attribution` CTE in `load_visit_attribution`
    (src/pages/6_Visit_Performance.py, lines 305-332);
  * `calculate_stockout_risk` (src/pages/2_Distributor_Inventory.py,
    lines 632-734), decomposed into its velocity / rate / stockout /
    risk / urgency pieces;
  * `generate_pipeline_forecast` (lines 737-777);
  * `_forecast_single_series` (lines 780-843) and
    `generate_ensemble_forecast` (lines 846-912).

Exact warehouse aggregates are modelled over ℚ; the float pipeline of
the forecaster and risk scorer (which uses square roots for standard
deviations) is modelled over ℝ.
-/

namespace OpsCenter

/-! ## Inventory health classifier

Shallow embedding of the `inventory_status` CASE expression in
`load_inventory_data`.  The inputs are the already-COALESCEd aggregates
`qty_ordered` and `total_qty_depleted`; the ratio `qty_ordered * 1.0 /
total_qty_depleted` is modelled exactly over ℚ. -/

inductive InventoryStatus where
  | noDepletionData
  | noRecentOrders
  | overstock
  | understock
  | balanced
  | noData
  deriving DecidableEq, Repr

def inventoryStatus (qty_ordered total_qty_depleted : ℚ) : InventoryStatus :=
  if total_qty_depleted = 0 ∧ 0 < qty_ordered then .noDepletionData
  else if qty_ordered = 0 ∧ 0 < total_qty_depleted then .noRecentOrders
  else if 0 < total_qty_depleted ∧ 1.3 < qty_ordered / total_qty_depleted then .overstock
  else if 0 < total_qty_depleted ∧ qty_ordered / total_qty_depleted < 0.7 then .understock
  else if 0 < total_qty_depleted then .balanced
  else .noData

/-! ## Attribution engine

Shallow embedding of the `visit_attribution` CTE of
`load_visit_attribution`: the baseline window is a partial map from
product code to `units_before` (a product with no baseline transactions
is absent, i.e. `none` — the SQL sees `b.units_before IS NULL`), the
follow-up window is an association list of `(product, units_after)`
pairs; the `WHERE a.units_after IS NOT NULL` clause restricts the full
outer join to exactly the follow-up rows. -/

def newPodContrib (baseline : ℕ → Option ℚ) (pv : ℕ × ℚ) : ℚ :=
  match baseline pv.1 with
  | none => if 0 < pv.2 then pv.2 else 0
  | some _ => 0

def incrContrib (baseline : ℕ → Option ℚ) (pv : ℕ × ℚ) : ℚ :=
  match baseline pv.1 with
  | none => 0
  | some b => if b < pv.2 then pv.2 - b else 0

def newPodUnits (baseline : ℕ → Option ℚ) (followup : List (ℕ × ℚ)) : ℚ :=
  (followup.map (newPodContrib baseline)).sum

def incrementalUnits (baseline : ℕ → Option ℚ) (followup : List (ℕ × ℚ)) : ℚ :=
  (followup.map (incrContrib baseline)).sum

def converted (baseline : ℕ → Option ℚ) (followup : List (ℕ × ℚ)) : Prop :=
  0 < newPodUnits baseline followup + incrementalUnits baseline followup

/-! ### Theorems for the classifier and the attribution engine -/

/-- Claim C5: for `depleted_qty > 0` with none of the earlier priority
rules matching (i.e. `ordered_qty ≠ 0`), the classifier computes
`ratio = ordered_qty / depleted_qty` and returns `Overstock` iff the
ratio is strictly above 1.3, `Understock` iff it is strictly below 0.7,
and `Balanced` otherwise; in particular a ratio of exactly 1.3 is
`Balanced`. -/
theorem inventory_ratio_classification (o d : ℚ) (hd : 0 < d) (ho : o ≠ 0) :
    (inventoryStatus o d = .overstock ↔ 1.3 < o / d) ∧
    (inventoryStatus o d = .understock ↔ o / d < 0.7) ∧
    (inventoryStatus o d = .balanced ↔ 0.7 ≤ o / d ∧ o / d ≤ 1.3) := by
  have hd0 : ¬(d = 0 ∧ 0 < o) := by rintro ⟨h, -⟩; exact absurd h (ne_of_gt hd)
  have ho0 : ¬(o = 0 ∧ 0 < d) := by rintro ⟨h, -⟩; exact ho h
  unfold inventoryStatus
  rw [if_neg hd0, if_neg ho0]
  by_cases hov : 1.3 < o / d
  · rw [if_pos ⟨hd, hov⟩]
    refine ⟨by simp [hov], ?_, ?_⟩
    · constructor
      · intro h; exact absurd h (by decide)
      · intro h; exact absurd (by linarith : (1.3 : ℚ) < 0.7) (by norm_num)
    · constructor
      · intro h; exact absurd h (by decide)
      · rintro ⟨-, h⟩; exact absurd (lt_of_lt_of_le hov h) (lt_irrefl _)
  · rw [if_neg (by rintro ⟨-, h⟩; exact hov h)]
    by_cases hun : o / d < 0.7
    · rw [if_pos ⟨hd, hun⟩]
      refine ⟨?_, by simp [hun], ?_⟩
      · constructor
        · intro h; exact absurd h (by decide)
        · intro h; exact absurd h hov
      · constructor
        · intro h; exact absurd h (by decide)
        · rintro ⟨h, -⟩; linarith
    · rw [if_neg (by rintro ⟨-, h⟩; exact hun h), if_pos hd]
      refine ⟨?_, ?_, ?_⟩
      · constructor
        · intro h; exact absurd h (by decide)
        · intro h; exact absurd h hov
      · constructor
        · intro h; exact absurd h (by decide)
        · intro h; exact absurd h hun
      · simp only [true_iff]
        exact ⟨le_of_not_lt hun, le_of_not_lt hov⟩

/-- Witness for C5: the spec scenario `ordered = 130, depleted = 100`
gives ratio exactly 1.3 and status `Balanced`. -/
theorem inventory_ratio_classification_witness :
    inventoryStatus 130 100 = .balanced :=
  ((inventory_ratio_classification 130 100 (by norm_num) (by norm_num)).2.2).mpr
    (by norm_num)

/-- Counterexample for C4: a product present in the baseline with volume
exactly 0 and positive follow-up volume 5 is credited to
`incremental_units`, not `new_product_units` — the SQL only tests
`units_before IS NULL`, so the claim "absent from baseline OR ZERO there
counts as new_product_units" is false. -/
theorem new_pod_zero_baseline_cx :
    newPodUnits (fun p => if p = 1 then some 0 else none) [(1, 5)] = 0 ∧
    incrementalUnits (fun p => if p = 1 then some 0 else none) [(1, 5)] = 5 := by
  constructor
  · simp [newPodUnits, newPodContrib]
  · norm_num [incrementalUnits, incrContrib]

/-- Claim C4 (amended): a product with NO baseline entry and positive
follow-up volume contributes its full follow-up volume to
`new_product_units` and nothing to `incremental_units`; a product whose
baseline entry is present with value zero instead contributes its full
follow-up volume to `incremental_units`. -/
theorem new_pod_absent_baseline (b : ℕ → Option ℚ) (p : ℕ) (v : ℚ) (hv : 0 < v) :
    (b p = none → newPodContrib b (p, v) = v ∧ incrContrib b (p, v) = 0) ∧
    (b p = some 0 → newPodContrib b (p, v) = 0 ∧ incrContrib b (p, v) = v) := by
  constructor
  · intro h
    constructor
    · simp [newPodContrib, h, hv]
    · simp [incrContrib, h]
  · intro h
    constructor
    · simp [newPodContrib, h]
    · simp [incrContrib, h, hv]

/-- Witness for C4 (amended): product 0 is absent from the baseline map
and its follow-up volume 5 is fully counted as a new-POD contribution. -/
theorem new_pod_absent_baseline_witness :
    newPodContrib (fun p => if p = 1 then some 0 else none) (0, 5) = 5 ∧
    incrContrib (fun p => if p = 1 then some 0 else none) (0, 5) = 0 :=
  (new_pod_absent_baseline (fun p => if p = 1 then some 0 else none) 0 5
    (by norm_num)).1 (by norm_num)

/-- Claim C8: when every follow-up volume is at most the corresponding
baseline volume (absent baseline entries counting as zero), the
attribution engine returns zero `new_product_units`, zero
`incremental_units`, and `converted` is false — declines never produce
negative or positive credit. -/
theorem attribution_asymmetry (b : ℕ → Option ℚ) (f : List (ℕ × ℚ))
    (h : ∀ pv ∈ f, pv.2 ≤ (b pv.1).getD 0) :
    newPodUnits b f = 0 ∧ incrementalUnits b f = 0 ∧ ¬converted b f := by
  have hnew : newPodUnits b f = 0 := by
    unfold newPodUnits
    apply List.sum_eq_zero
    intro x hx
    obtain ⟨pv, hpv, rfl⟩ := List.mem_map.mp hx
    have hle := h pv hpv
    unfold newPodContrib
    cases hb : b pv.1 with
    | none =>
        simp only [hb, Option.getD_none] at hle
        simp [not_lt.mpr hle]
    | some b0 => simp
  have hincr : incrementalUnits b f = 0 := by
    unfold incrementalUnits
    apply List.sum_eq_zero
    intro x hx
    obtain ⟨pv, hpv, rfl⟩ := List.mem_map.mp hx
    have hle := h pv hpv
    unfold incrContrib
    cases hb : b pv.1 with
    | none => simp
    | some b0 =>
        simp only [hb, Option.getD_some] at hle
        simp [not_lt.mpr hle]
  refine ⟨hnew, hincr, ?_⟩
  unfold converted
  rw [hnew, hincr]
  norm_num

/-- Witness for C8: a single product declining from baseline 10 to
follow-up 5 yields zero attribution and no conversion. -/
theorem attribution_asymmetry_witness :
    newPodUnits (fun _ => some 10) [(1, 5)] = 0 ∧
    incrementalUnits (fun _ => some 10) [(1, 5)] = 0 ∧
    ¬converted (fun _ => some 10) [(1, 5)] :=
  attribution_asymmetry (fun _ => some 10) [(1, 5)]
    (by intro pv hpv; simp at hpv; simp [hpv]; norm_num)

/-! ## Stockout risk scorer

Shallow embedding of the per-row body of `calculate_stockout_risk`.
The inputs of one row are `weeks_inv` (the nullable `weeks_of_inventory`
column), the scalar aggregates `weekly_rate`, `qty_ordered`,
`qty_depleted`, and `history`, the chronological list of weekly
`qty_depleted` values of this distributor (the rows of
`dist_trends_df`, ordered ascending by week).  `pandas.Series.std` is
the sample standard deviation (ddof = 1). -/

noncomputable def listMean (l : List ℝ) : ℝ := l.sum / l.length

noncomputable def sampleStd (l : List ℝ) : ℝ :=
  Real.sqrt ((l.map (fun x => (x - listMean l) ^ 2)).sum / ((l.length : ℝ) - 1))

noncomputable def velocityTrend (history : List ℝ) : ℝ :=
  if 4 ≤ history.length then
    let recent := listMean (history.drop (history.length - 4))
    let prev := if 8 ≤ history.length then listMean (history.take 4) else recent
    if 0 < prev then (recent - prev) / prev else 0
  else 0

noncomputable def velocityCv (history : List ℝ) : ℝ :=
  if 4 ≤ history.length ∧ 0 < listMean history then
    sampleStd history / listMean history
  else 0.2

noncomputable def adjustedRate (weekly_rate : ℝ) (history : List ℝ) : ℝ :=
  if 0 < weekly_rate then weekly_rate * (1 + velocityTrend history * 0.5) else 0

noncomputable def weeksUntilStockout (weeks_inv : Option ℝ) (weekly_rate qty_ordered : ℝ)
    (history : List ℝ) : Option ℝ :=
  if 0 < adjustedRate weekly_rate history ∧ 0 < qty_ordered then
    some (qty_ordered / adjustedRate weekly_rate history)
  else
    match weeks_inv with
    | some w => if 0 < w then some w else none
    | none => none

noncomputable def riskScore (weeks_inv : Option ℝ) (weekly_rate qty_ordered qty_depleted : ℝ)
    (history : List ℝ) : ℝ :=
  match weeksUntilStockout weeks_inv weekly_rate qty_ordered history with
  | some w =>
      let base := max 0 (min 100 (100 - w * 8))
      let trendModifier := 1 + max 0 (velocityTrend history * 0.3)
      let consistencyModifier := 1 + min 0.3 (velocityCv history * 0.5)
      min 100 (base * trendModifier * consistencyModifier)
  | none => if 0 < qty_depleted then 50 else 0

inductive Urgency where
  | critical
  | high
  | medium
  | low
  | notApplicable
  deriving DecidableEq, Repr

noncomputable def reorderUrgency (weeks_inv : Option ℝ) (weekly_rate qty_ordered : ℝ)
    (history : List ℝ) : Urgency :=
  if 0 < adjustedRate weekly_rate history then
    match weeksUntilStockout weeks_inv weekly_rate qty_ordered history with
    | some w =>
        if w < 3 then .critical
        else if w < 6 then .high
        else if w < 10 then .medium
        else .low
    | none => .low
  else .notApplicable

noncomputable def reorderQty (weekly_rate qty_ordered : ℝ) (history : List ℝ) : ℝ :=
  if 0 < adjustedRate weekly_rate history then
    max 0 (adjustedRate weekly_rate history * 8 - qty_ordered)
  else 0

/-- Modelled from the spec of C3 only, for comparison against the code:
the claim's velocity-trend formula, whose prior window is "the 4 entries
immediately before" the most recent 4. -/
noncomputable def specVelocityTrend (history : List ℝ) : ℝ :=
  if 4 ≤ history.length then
    let recent := listMean (history.drop (history.length - 4))
    let prior := listMean ((history.drop (history.length - 8)).take 4)
    if prior = 0 then 0 else (recent - prior) / prior
  else 0

/-! ### Theorems for the stockout risk scorer -/

/-- Counterexample for C2: with no `weeks_of_inventory`, a positive
weekly rate, zero ordered quantity and empty history, the adjusted rate
is 1 > 0, `weeks_until_stockout` is null, yet the urgency is `Low`, not
`NotApplicable` as the claim requires for a null `weeks_until_stockout`. -/
theorem urgency_null_wus_low_cx :
    weeksUntilStockout none 1 0 [] = none ∧
    reorderUrgency none 1 0 [] = Urgency.low ∧
    Urgency.low ≠ Urgency.notApplicable := by
  have hadj : adjustedRate 1 [] = 1 := by
    norm_num [adjustedRate, velocityTrend]
  have hwus : weeksUntilStockout none 1 0 [] = none := by
    unfold weeksUntilStockout
    rw [if_neg (by rintro ⟨-, h⟩; exact lt_irrefl 0 h)]
  refine ⟨hwus, ?_, by decide⟩
  unfold reorderUrgency
  rw [if_pos (by rw [hadj]; norm_num), hwus]

/-- Claim C2 (amended): the urgency tier is `NotApplicable` whenever the
adjusted weekly depletion rate is ≤ 0; when the adjusted rate is
positive, the tier is `Critical` for `weeks_until_stockout < 3`, `High`
for `< 6`, `Medium` for `< 10`, `Low` otherwise — and also `Low` (not
`NotApplicable`) when `weeks_until_stockout` is null. -/
theorem urgency_tiers (wi : Option ℝ) (wr qo : ℝ) (h : List ℝ) :
    (adjustedRate wr h ≤ 0 → reorderUrgency wi wr qo h = .notApplicable) ∧
    (0 < adjustedRate wr h →
      (weeksUntilStockout wi wr qo h = none → reorderUrgency wi wr qo h = .low) ∧
      ∀ w, weeksUntilStockout wi wr qo h = some w →
        reorderUrgency wi wr qo h =
          (if w < 3 then .critical
           else if w < 6 then .high
           else if w < 10 then .medium
           else .low)) := by
  constructor
  · intro hle
    unfold reorderUrgency
    rw [if_neg (not_lt.mpr hle)]
  · intro hpos
    constructor
    · intro hnone
      unfold reorderUrgency
      rw [if_pos hpos, hnone]
    · intro w hw
      unfold reorderUrgency
      rw [if_pos hpos, hw]

/-- Witness for C2 (amended): concrete instantiation with a positive
adjusted rate and null `weeks_until_stockout`, giving urgency `Low`. -/
theorem urgency_tiers_witness : reorderUrgency (some 0) 1 0 [] = Urgency.low := by
  have hadj : (0 : ℝ) < adjustedRate 1 [] := by
    norm_num [adjustedRate, velocityTrend]
  have hwus : weeksUntilStockout (some 0) 1 0 [] = none := by
    unfold weeksUntilStockout
    rw [if_neg (by rintro ⟨-, hlt⟩; exact lt_irrefl 0 hlt)]
    norm_num
  exact ((urgency_tiers (some 0) 1 0 []).2 hadj).1 hwus

/-- Counterexample for C3: for the 12-entry history
`[10,10,10,10,0,0,0,0,20,20,20,20]` the claim's formula (prior window =
the 4 entries immediately before the most recent 4, whose mean is 0)
demands trend 0, but the code compares the most recent 4 against the
FIRST 4 entries and returns trend 1. -/
theorem velocity_trend_first4_cx :
    velocityTrend [10, 10, 10, 10, 0, 0, 0, 0, 20, 20, 20, 20] = 1 ∧
    specVelocityTrend [10, 10, 10, 10, 0, 0, 0, 0, 20, 20, 20, 20] = 0 := by
  constructor
  · norm_num [velocityTrend, listMean]
  · norm_num [specVelocityTrend, listMean]

/-- Claim C3 (amended): for histories with at least 8 entries the
velocity trend is `(mean of last 4 - mean of FIRST 4) / mean of first 4`
(0 when the mean of the first 4 is not positive); for histories with
fewer than 8 entries — including those with 4 to 7 entries — the trend
is 0. -/
theorem velocity_trend_first4 (h : List ℝ) :
    (h.length < 8 → velocityTrend h = 0) ∧
    (8 ≤ h.length →
      velocityTrend h =
        if 0 < listMean (h.take 4) then
          (listMean (h.drop (h.length - 4)) - listMean (h.take 4)) /
            listMean (h.take 4)
        else 0) := by
  constructor
  · intro hlt
    unfold velocityTrend
    by_cases h4 : 4 ≤ h.length
    · rw [if_pos h4]
      simp only [if_neg (not_le.mpr hlt)]
      split
      · rw [sub_self, zero_div]
      · rfl
    · rw [if_neg h4]
  · intro h8
    unfold velocityTrend
    rw [if_pos (le_trans (by norm_num) h8)]
    simp only [if_pos h8]

/-- Witness for C3 (amended): a 4-entry history has velocity trend 0. -/
theorem velocity_trend_first4_witness :
    velocityTrend [5, 6, 7, 8] = 0 :=
  (velocity_trend_first4 [5, 6, 7, 8]).1 (by norm_num)

/-- Claim C7: for every input to the stockout risk scorer (any
aggregates, any history including the empty one) the risk score lies in
[0, 100]; when `weeks_until_stockout` is null the score is exactly 50 if
`depleted_qty > 0` and 0 otherwise. -/
theorem risk_score_bounded (wi : Option ℝ) (wr qo qd : ℝ) (h : List ℝ) :
    0 ≤ riskScore wi wr qo qd h ∧ riskScore wi wr qo qd h ≤ 100 ∧
    (weeksUntilStockout wi wr qo h = none →
      riskScore wi wr qo qd h = if 0 < qd then 50 else 0) := by
  have hcv : 0 ≤ velocityCv h := by
    unfold velocityCv
    split
    · next hc => exact div_nonneg (Real.sqrt_nonneg _) (le_of_lt hc.2)
    · norm_num
  cases hwus : weeksUntilStockout wi wr qo h with
  | none =>
      have hr : riskScore wi wr qo qd h = if 0 < qd then 50 else 0 := by
        simp only [riskScore, hwus]
      rw [hr]
      refine ⟨by split <;> norm_num, by split <;> norm_num, fun _ => rfl⟩
  | some w =>
      have hr : riskScore wi wr qo qd h =
          min 100 (max 0 (min 100 (100 - w * 8)) *
            (1 + max 0 (velocityTrend h * 0.3)) *
            (1 + min 0.3 (velocityCv h * 0.5))) := by
        simp only [riskScore, hwus]
      have hbase0 : (0 : ℝ) ≤ max 0 (min 100 (100 - w * 8)) := le_max_left _ _
      have htm0 : (0 : ℝ) ≤ 1 + max 0 (velocityTrend h * 0.3) := by
        have := le_max_left (0 : ℝ) (velocityTrend h * 0.3)
        linarith
      have hcm0 : (0 : ℝ) ≤ 1 + min 0.3 (velocityCv h * 0.5) := by
        have : (0 : ℝ) ≤ min 0.3 (velocityCv h * 0.5) :=
          le_min (by norm_num) (by linarith)
        linarith
      rw [hr]
      refine ⟨le_min (by norm_num) (mul_nonneg (mul_nonneg hbase0 htm0) hcm0),
        min_le_left _ _, fun hc => ?_⟩
      exact (Option.some_ne_none w hc).elim

/-! ## Pipeline forecast projection

Shallow embedding of the per-distributor loop body of
`generate_pipeline_forecast`: starting from `current_inv`
(`qty_ordered_period`), each forecast week subtracts the adjusted
weekly rate and clamps at zero; the `is_stockout` flag of week `i` is
`projected_inventory ≤ 0`. -/

noncomputable def projectedInventory (current_inv weekly_rate : ℝ) : ℕ → ℝ
  | 0 => current_inv
  | i + 1 => max 0 (projectedInventory current_inv weekly_rate i - weekly_rate)

def isStockoutWeek (current_inv weekly_rate : ℝ) (i : ℕ) : Prop :=
  projectedInventory current_inv weekly_rate i ≤ 0

/-! ## Forecast engine

Shallow embedding of `_forecast_single_series`.  `numpy.std` is the
population standard deviation; `fcPair y t` is the `(level, trend)`
state of the damped-trend loop after `t` iterations, so period `t ≥ 1`
of the output is `forecastPoint y t` with uncertainty factor
`1 + 0.1 * sqrt t`. -/

noncomputable def popStd (y : List ℝ) : ℝ :=
  Real.sqrt ((y.map (fun x => (x - listMean y) ^ 2)).sum / y.length)

noncomputable def recentMean (y : List ℝ) : ℝ :=
  if 4 ≤ y.length then listMean (y.drop (y.length - 4)) else listMean y

noncomputable def weeklyTrend (y : List ℝ) : ℝ :=
  if 8 ≤ y.length then
    (listMean (y.drop (y.length - 4)) - listMean ((y.drop (y.length - 8)).take 4)) / 4
  else if 4 ≤ y.length then
    (y.getD (y.length - 1) 0 - y.getD (y.length - 4) 0) / 4
  else 0

noncomputable def fcPair (y : List ℝ) : ℕ → ℝ × ℝ
  | 0 => (recentMean y, weeklyTrend y)
  | i + 1 =>
      ((fcPair y i).1 + (fcPair y i).2 * 0.92 + 0.05 * (listMean y - (fcPair y i).1),
       (fcPair y i).2 * 0.92)

noncomputable def forecastFloor (y : List ℝ) : ℝ := recentMean y * 0.5

noncomputable def forecastPoint (y : List ℝ) (t : ℕ) : ℝ :=
  max (fcPair y t).1 (forecastFloor y)

noncomputable def cvOf (y : List ℝ) : ℝ :=
  min (if 0 < listMean y then popStd y / listMean y else 0.15) 0.25

noncomputable def uncertainty (y : List ℝ) (t : ℕ) : ℝ :=
  cvOf y * (1 + 0.1 * Real.sqrt t) * forecastPoint y t

noncomputable def ci80Low (y : List ℝ) (t : ℕ) : ℝ :=
  max (forecastPoint y t - 0.8 * uncertainty y t) (forecastFloor y * 0.8)

noncomputable def ci80High (y : List ℝ) (t : ℕ) : ℝ :=
  forecastPoint y t + 0.8 * uncertainty y t

noncomputable def ci95Low (y : List ℝ) (t : ℕ) : ℝ :=
  max (forecastPoint y t - 1.2 * uncertainty y t) (forecastFloor y * 0.6)

noncomputable def ci95High (y : List ℝ) (t : ℕ) : ℝ :=
  forecastPoint y t + 1.2 * uncertainty y t

/-! ## Ensemble forecast entry point

Shallow embedding of `generate_ensemble_forecast`: the input rows are
the weekly records of `load_trend_data` sorted by `week_start`
(modelled by a ℕ `week` key); `qty_depleted` / `order_value` are
nullable to model `dropna` and the pandas fallback filter (a NaN
compares false against 0).  The result is `none` — the
`InsufficientHistory` signal — or the per-week forecast points of the
depletion and order-value series. -/

structure TrendRow where
  week : ℕ
  qty_depleted : Option ℝ
  order_value : Option ℝ

def cleanRows (rows : List TrendRow) : List TrendRow :=
  (rows.mergeSort (fun a b => a.week ≤ b.week)).filter
    (fun r => r.qty_depleted.isSome && r.order_value.isSome)

noncomputable def fallbackRows (rows : List TrendRow) : List TrendRow :=
  (rows.mergeSort (fun a b => a.week ≤ b.week)).filter
    (fun r => decide (0 < r.qty_depleted.getD 0) || decide (0 < r.order_value.getD 0))

noncomputable def selectedRows (rows : List TrendRow) : List TrendRow :=
  if (cleanRows rows).length < 4 then fallbackRows rows else cleanRows rows

noncomputable def generate_ensemble_forecast (rows : List TrendRow)
    (forecast_weeks : ℕ) : Option (List ℝ × List ℝ) :=
  if rows.length < 4 then none
  else if (selectedRows rows).length < 4 then none
  else
    some
      ((List.range forecast_weeks).map
        (fun i => forecastPoint ((selectedRows rows).map (fun r => r.qty_depleted.getD 0)) (i + 1)),
       (List.range forecast_weeks).map
        (fun i => forecastPoint ((selectedRows rows).map (fun r => r.order_value.getD 0)) (i + 1)))

/-! ### Helper lemmas -/

lemma listMean_nonneg (l : List ℝ) (h : ∀ x ∈ l, 0 ≤ x) : 0 ≤ listMean l :=
  div_nonneg (List.sum_nonneg h) (Nat.cast_nonneg _)

lemma recentMean_nonneg (y : List ℝ) (h : ∀ x ∈ y, 0 ≤ x) : 0 ≤ recentMean y := by
  unfold recentMean
  split
  · exact listMean_nonneg _ (fun x hx => h x (List.mem_of_mem_drop hx))
  · exact listMean_nonneg _ h

lemma cvOf_nonneg (y : List ℝ) : 0 ≤ cvOf y := by
  unfold cvOf
  refine le_min ?_ (by norm_num)
  split
  · next hc => exact div_nonneg (Real.sqrt_nonneg _) (le_of_lt hc)
  · norm_num

lemma forecastFloor_nonneg (y : List ℝ) (h : ∀ x ∈ y, 0 ≤ x) : 0 ≤ forecastFloor y := by
  unfold forecastFloor
  have := recentMean_nonneg y h
  linarith

lemma forecastPoint_ge_floor (y : List ℝ) (t : ℕ) :
    forecastFloor y ≤ forecastPoint y t := le_max_right _ _

lemma uncertainty_nonneg (y : List ℝ) (t : ℕ) (h : ∀ x ∈ y, 0 ≤ x) :
    0 ≤ uncertainty y t := by
  unfold uncertainty
  have h1 : (0 : ℝ) ≤ 1 + 0.1 * Real.sqrt t := by
    have := Real.sqrt_nonneg (t : ℝ)
    linarith
  have h2 : 0 ≤ forecastPoint y t :=
    le_trans (forecastFloor_nonneg y h) (forecastPoint_ge_floor y t)
  exact mul_nonneg (mul_nonneg (cvOf_nonneg y) h1) h2

lemma sum_zero_all_zero (l : List ℝ) (hnn : ∀ x ∈ l, 0 ≤ x) (hs : l.sum = 0) :
    ∀ x ∈ l, x = 0 := by
  induction l with
  | nil => simp
  | cons a l ih =>
      have ha : 0 ≤ a := hnn a (by simp)
      have hl : ∀ x ∈ l, 0 ≤ x := fun x hx => hnn x (List.mem_cons_of_mem _ hx)
      have hsl : 0 ≤ l.sum := List.sum_nonneg hl
      rw [List.sum_cons] at hs
      have ha0 : a = 0 := by linarith
      have hl0 : l.sum = 0 := by linarith
      intro x hx
      rcases List.mem_cons.mp hx with h | h
      · rw [h, ha0]
      · exact ih hl hl0 x h

lemma mean_zero_of_all_zero (l : List ℝ) (h : ∀ x ∈ l, x = 0) : listMean l = 0 := by
  unfold listMean
  rw [List.sum_eq_zero h, zero_div]

lemma getD_zero_of_all_zero (l : List ℝ) (h : ∀ x ∈ l, x = 0) (i : ℕ) :
    l.getD i 0 = 0 := by
  rcases e : l[i]? with _ | a
  · simp [List.getD, e]
  · have := List.getElem?_mem e
    simp [List.getD, e, h a this]

/-! ### Theorems for the forecast engine and pipeline projection -/

/-- Claim C1: for every non-negative input series of length at least 4
and every forecast period `t ≥ 1`, the forecast output satisfies
`0 ≤ ci95_low ≤ ci80_low ≤ point ≤ ci80_high ≤ ci95_high`; in
particular every point and band value is non-negative. -/
theorem forecast_ci_nested_nonneg (y : List ℝ) (t : ℕ)
    (hnn : ∀ x ∈ y, 0 ≤ x) (_hlen : 4 ≤ y.length) (_ht : 1 ≤ t) :
    0 ≤ ci95Low y t ∧ ci95Low y t ≤ ci80Low y t ∧
    ci80Low y t ≤ forecastPoint y t ∧ forecastPoint y t ≤ ci80High y t ∧
    ci80High y t ≤ ci95High y t := by
  have hfl : 0 ≤ forecastFloor y := forecastFloor_nonneg y hnn
  have hpt : forecastFloor y ≤ forecastPoint y t := forecastPoint_ge_floor y t
  have hu : 0 ≤ uncertainty y t := uncertainty_nonneg y t hnn
  refine ⟨?_, ?_, ?_, ?_, ?_⟩
  · exact le_trans (by linarith) (le_max_right (forecastPoint y t - 1.2 * uncertainty y t) _)
  · exact max_le_max (by linarith) (by linarith)
  · exact max_le (by linarith) (by linarith)
  · unfold ci80High; linarith
  · unfold ci80High ci95High; linarith

/-- Witness for C1: the flat series `[1,1,1,1]` at period 1. -/
theorem forecast_ci_nested_nonneg_witness :
    0 ≤ ci95Low [1, 1, 1, 1] 1 ∧ ci95Low [1, 1, 1, 1] 1 ≤ ci80Low [1, 1, 1, 1] 1 ∧
    ci80Low [1, 1, 1, 1] 1 ≤ forecastPoint [1, 1, 1, 1] 1 ∧
    forecastPoint [1, 1, 1, 1] 1 ≤ ci80High [1, 1, 1, 1] 1 ∧
    ci80High [1, 1, 1, 1] 1 ≤ ci95High [1, 1, 1, 1] 1 :=
  forecast_ci_nested_nonneg [1, 1, 1, 1] 1
    (by intro x hx; simp at hx; subst hx; norm_num)
    (by norm_num) (le_refl 1)

/-- Claim C9: for a non-negative input series with overall mean 0, the
coefficient of variation defaults to 0.15 (no division by zero) and
every forecast point is 0. -/
theorem forecast_zero_mean_safe (y : List ℝ) (h0 : 0 < y.length)
    (hnn : ∀ x ∈ y, 0 ≤ x) (hm : listMean y = 0) :
    cvOf y = 0.15 ∧ ∀ t, forecastPoint y t = 0 := by
  have hsum : y.sum = 0 := by
    unfold listMean at hm
    rcases div_eq_zero_iff.mp hm with h | h
    · exact h
    · exact absurd h (ne_of_gt (Nat.cast_pos.mpr h0))
  have hz : ∀ x ∈ y, x = 0 := sum_zero_all_zero y hnn hsum
  have hrm : recentMean y = 0 := by
    unfold recentMean
    split
    · exact mean_zero_of_all_zero _ (fun x hx => hz x (List.mem_of_mem_drop hx))
    · exact hm
  have hwt : weeklyTrend y = 0 := by
    unfold weeklyTrend
    split
    · rw [mean_zero_of_all_zero _ (fun x hx => hz x (List.mem_of_mem_drop hx)),
        mean_zero_of_all_zero _
          (fun x hx => hz x (List.mem_of_mem_drop (List.mem_of_mem_take hx)))]
      norm_num
    · split
      · rw [getD_zero_of_all_zero y hz, getD_zero_of_all_zero y hz]
        norm_num
      · rfl
  have hpair : ∀ t, fcPair y t = (0, 0) := by
    intro t
    induction t with
    | zero => simp [fcPair, hrm, hwt]
    | succ n ih => simp [fcPair, ih, hm]
  constructor
  · unfold cvOf
    rw [hm]
    norm_num
  · intro t
    unfold forecastPoint forecastFloor
    rw [hpair t, hrm]
    norm_num

/-- Witness for C9: the all-zero series `[0,0,0,0]`. -/
theorem forecast_zero_mean_safe_witness :
    cvOf [0, 0, 0, 0] = 0.15 ∧ ∀ t, forecastPoint [0, 0, 0, 0] t = 0 :=
  forecast_zero_mean_safe [0, 0, 0, 0] (by norm_num)
    (by intro x hx; simp at hx; subst hx; norm_num)
    (by norm_num [listMean])

/-- Claim C10: with a non-negative starting inventory and a non-negative
adjusted weekly rate, the projected inventory is non-increasing week
over week and never negative, and once the stockout flag is set it stays
set in every later week. -/
theorem pipeline_projection_monotone (c r : ℝ) (hc : 0 ≤ c) (hr : 0 ≤ r) (i : ℕ) :
    projectedInventory c r (i + 1) ≤ projectedInventory c r i ∧
    0 ≤ projectedInventory c r i ∧
    (isStockoutWeek c r i → isStockoutWeek c r (i + 1)) := by
  have hnn : ∀ j, 0 ≤ projectedInventory c r j := by
    intro j
    cases j with
    | zero => exact hc
    | succ n => exact le_max_left _ _
  have hstep : projectedInventory c r (i + 1) = max 0 (projectedInventory c r i - r) := rfl
  refine ⟨?_, hnn i, ?_⟩
  · rw [hstep]
    exact max_le (hnn i) (by linarith [hnn i])
  · intro h
    have heq : projectedInventory c r i = 0 := le_antisymm h (hnn i)
    unfold isStockoutWeek
    rw [hstep, heq]
    exact max_le (le_refl 0) (by linarith)

/-- Witness for C10: starting inventory 10, rate 5, first week. -/
theorem pipeline_projection_monotone_witness :
    projectedInventory 10 5 1 ≤ projectedInventory 10 5 0 ∧
    0 ≤ projectedInventory 10 5 0 ∧
    (isStockoutWeek 10 5 0 → isStockoutWeek 10 5 1) :=
  pipeline_projection_monotone 10 5 (by norm_num) (by norm_num) 0

/-- Claim C6: for input rows with no missing values (the upstream query
COALESCEs both series to 0), the forecasting entry point returns the
explicit insufficiency signal `none` exactly when there are fewer than 4
observed periods, and returns a forecast (`some`) for 4 or more. -/
theorem ensemble_forecast_insufficient_history (rows : List TrendRow) (w : ℕ)
    (hfull : ∀ r ∈ rows, r.qty_depleted.isSome ∧ r.order_value.isSome) :
    (generate_ensemble_forecast rows w = none ↔ rows.length < 4) := by
  unfold generate_ensemble_forecast
  by_cases h4 : rows.length < 4
  · simp [h4]
  · rw [if_neg h4]
    have hperm : (rows.mergeSort (fun a b => a.week ≤ b.week)).Perm rows :=
      List.mergeSort_perm rows _
    have hclean : cleanRows rows = rows.mergeSort (fun a b => a.week ≤ b.week) := by
      unfold cleanRows
      apply List.filter_eq_self.mpr
      intro r hr
      have := hfull r (hperm.mem_iff.mp hr)
      simp [this.1, this.2]
    have hlen : (cleanRows rows).length = rows.length := by
      rw [hclean]
      exact hperm.length_eq
    have hsel : (selectedRows rows).length = rows.length := by
      unfold selectedRows
      rw [if_neg (by rw [hlen]; exact h4), hlen]
    rw [if_neg (by rw [hsel]; exact h4)]
    simp [h4]

/-- Witness for C6: the empty row list is refused with `none`. -/
theorem ensemble_forecast_insufficient_history_witness :
    generate_ensemble_forecast [] 12 = none :=
  (ensemble_forecast_insufficient_history [] 12 (by intro r hr; cases hr)).mpr
    (by norm_num)

end OpsCenter
